import Mathlib

/-!
Verification of the FixLoop continuous-testing core: the error
classifier (`ErrorAnalyzer`), the test runner with framework detection and
selection (`TestRunner`), and the AI suggestion orchestrator
(`AITestingService`).  TypeScript code is shallowly embedded: strings are
Lean `String`s, JavaScript records keyed by strings are association lists
in insertion order, fallible host operations (filesystem, JSON parsing,
HTTP backends) are oracle fields of explicit environment structures, and
the JavaScript string builtins used by the source (`split`, `includes`,
`trim`, `replace`, regular-expression matching) are modelled by executable
functions on character lists with JavaScript semantics (leftmost match,
greedy backtracking, `.` excluding line terminators, ASCII case mapping).
-/

namespace FixLoop

/-! ## JavaScript string-primitive models -/

/-- JavaScript whitespace characters recognised by `String.prototype.trim`
(the code points that occur in this code base's data: tab, lf, vt, ff, cr,
space, nbsp, line/paragraph separator, BOM). -/
def jsWsChar (c : Char) : Bool :=
  c.toNat == 9 || c.toNat == 10 || c.toNat == 11 || c.toNat == 12 ||
  c.toNat == 13 || c.toNat == 32 || c.toNat == 160 || c.toNat == 8232 ||
  c.toNat == 8233 || c.toNat == 65279

/-- `trim` on a character list: drop JavaScript whitespace at both ends. -/
def trimChars (l : List Char) : List Char :=
  ((l.dropWhile jsWsChar).reverse.dropWhile jsWsChar).reverse

/-- Model of `String.prototype.trim`. -/
def jsTrim (s : String) : String :=
  String.mk (trimChars s.toList)

/-- Characters matched by the regular-expression metacharacter `.`
(anything but a line terminator). -/
def isDotChar (c : Char) : Bool :=
  c.toNat != 10 && c.toNat != 13 && c.toNat != 8232 && c.toNat != 8233

/-- Characters matched by the regular-expression class `\w`. -/
def isWordChar (c : Char) : Bool :=
  c.isAlphanum || c == '_'

/-- Index of the leftmost occurrence of `pat` in `l`, if any. -/
def findOcc (pat : List Char) : List Char → Option Nat
  | [] => if pat.isEmpty then some 0 else none
  | l@(_ :: rest) =>
    if pat.isPrefixOf l then some 0
    else (findOcc pat rest).map (· + 1)

theorem findOcc_le (pat : List Char) :
    ∀ l i, findOcc pat l = some i → i + pat.length ≤ l.length := by
  intro l
  induction l with
  | nil =>
    intro i h
    simp only [findOcc] at h
    split at h
    · rename_i hp
      cases h
      have hp' : pat = [] := by simpa using hp
      simp [hp']
    · cases h
  | cons c rest ih =>
    intro i h
    simp only [findOcc] at h
    split at h
    · rename_i hp
      cases h
      have hpre : pat <+: c :: rest := List.isPrefixOf_iff_prefix.mp hp
      simpa using hpre.length_le
    · rcases Option.map_eq_some'.mp h with ⟨j, hj, rfl⟩
      have := ih j hj
      simp only [List.length_cons]
      omega

/-- Contiguous sublist test via leftmost occurrence search. -/
def listInfix (sub l : List Char) : Bool :=
  (findOcc sub l).isSome

/-- Model of `String.prototype.includes`: contiguous substring test. -/
def strIncludes (s sub : String) : Bool :=
  listInfix sub.toList s.toList

/-- Model of `String.prototype.toLowerCase` (ASCII case mapping; the
indicator and category keywords the code compares against are ASCII). -/
def jsToLower (s : String) : String :=
  String.mk (s.toList.map Char.toLower)

/-- `l.split(sep)` for the fence separator used by the code, JavaScript
semantics: cut at each leftmost non-overlapping occurrence.  Structural
recursion on a character budget: every step consumes the three separator
characters, so a budget of the input length is never exhausted. -/
def splitFenceAux : Nat → List Char → List (List Char)
  | 0, l => [l]
  | fuel + 1, l =>
    match findOcc (['`', '`', '`']) l with
    | none => [l]
    | some i => l.take i :: splitFenceAux fuel (l.drop (i + 3))

def splitFence (l : List Char) : List (List Char) :=
  splitFenceAux l.length l

/-- `line.split(sep)` for a single-character separator, JavaScript
semantics (used with the newline separator by the parser). -/
def splitChar (sep : Char) : List Char → List (List Char)
  | [] => [[]]
  | c :: rest =>
    match splitChar sep rest with
    | [] => [[]]
    | seg :: segs =>
      if c == sep then [] :: seg :: segs else (c :: seg) :: segs

/-- Output lines: `output.split(newline)`. -/
def linesOf (output : String) : List String :=
  (splitChar (Char.ofNat 10) output.toList).map String.mk

/-- `Array.prototype.join(newline)`. -/
def joinNl : List String → String
  | [] => ""
  | [s] => s
  | s :: rest => s ++ String.mk [Char.ofNat 10] ++ joinNl rest

/-- First occurrence of `pat` replaced by `rep`
(JavaScript `String.prototype.replace` with a string pattern). -/
def replaceFirst (s pat rep : List Char) : List Char :=
  match findOcc pat s with
  | none => s
  | some i => s.take i ++ rep ++ s.drop (i + pat.length)

/-! ## Data model (`errorAnalyzer.ts` interfaces) -/

/-- `TestError` record: file, line, message, language tag. -/
structure TestError where
  file : String
  line : Nat
  message : String
  type : String
deriving DecidableEq

/-- `DetectedFramework` record.  Confidences are the exact decimal
constants of the source, represented in `ℚ`. -/
structure DetectedFramework where
  name : String
  command : String
  confidence : ℚ
deriving DecidableEq

/-- Severity levels of the analyzer. -/
inductive Severity where
  | low
  | medium
  | high
  | critical
deriving DecidableEq

/-- Rank realising the order low < medium < high < critical. -/
def sevRank : Severity → Nat
  | .low => 0
  | .medium => 1
  | .high => 2
  | .critical => 3

/-! ## `ErrorAnalyzer.getErrorCategory`: priority-ordered keyword match -/

/-- `getErrorCategory(message)`: the fixed if-chain over the lower-cased
message, first matching category wins, `Other` as fallback.  The
conditions `toBe` and `toEqual` are kept exactly as in the source (tested
against the lower-cased message, as written there). -/
def getErrorCategory (message : String) : String :=
  let m := jsToLower message
  if strIncludes m ("syntaxerror") || strIncludes m ("syntax error") then "Syntax Error"
  else if strIncludes m ("typeerror") || strIncludes m ("type error") then "Type Error"
  else if strIncludes m ("referenceerror") || strIncludes m ("reference error") then "Reference Error"
  else if strIncludes m ("assertionerror") || strIncludes m ("assertion") ||
      strIncludes m ("expected") || strIncludes m ("toBe") ||
      strIncludes m ("toEqual") then "Test Assertion"
  else if strIncludes m ("undefined") || strIncludes m ("null") ||
      strIncludes m ("cannot read property") ||
      strIncludes m ("cannot access before initialization") then "Undefined Variable"
  else if strIncludes m ("module") || strIncludes m ("import") ||
      strIncludes m ("require") || strIncludes m ("cannot resolve") then "Module Error"
  else if strIncludes m ("promise") || strIncludes m ("async") ||
      strIncludes m ("await") || strIncludes m ("unhandled rejection") then "Async Error"
  else if strIncludes m ("network") || strIncludes m ("fetch") ||
      strIncludes m ("xhr") || strIncludes m ("timeout") then "Network Error"
  else if strIncludes m ("file") || strIncludes m ("path") ||
      strIncludes m ("directory") || strIncludes m ("enoent") then "File System Error"
  else "Other"

/-- A JavaScript object keyed by strings, in insertion order. -/
abbrev StrRecord := List (String × Nat)

/-- `categories[category] = (categories[category] || 0) + 1`: bump the
first entry with the given key, or append a fresh entry. -/
def recordIncr : StrRecord → String → StrRecord
  | [], k => [(k, 1)]
  | (k', v) :: rest, k =>
    if k' == k then (k', v + 1) :: rest else (k', v) :: recordIncr rest k

/-- `record[key] || 0` as used in numeric comparisons
(`undefined` compares false against the positive thresholds). -/
def recordGet : StrRecord → String → Nat
  | [], _ => 0
  | (k', v) :: rest, k => if k' == k then v else recordGet rest k

/-- Sum of a record's values. -/
def recordSum (m : StrRecord) : Nat :=
  (m.map (fun p => p.2)).sum

/-- `categorizeErrors(errors)`: fold every error's category into a record. -/
def categorizeErrors (errors : List TestError) : StrRecord :=
  errors.foldl (fun m e => recordIncr m (getErrorCategory e.message)) []

/-- `assessSeverity(errors)`: the step function over the total count and
the Syntax/Reference/Type category counts. -/
def assessSeverity (errors : List TestError) : Severity :=
  let errorCount := errors.length
  let errorTypes := categorizeErrors errors
  if 15 < errorCount ∨ 0 < recordGet errorTypes ("Syntax Error") then .critical
  else if 10 < errorCount ∨ 2 < recordGet errorTypes ("Reference Error") then .high
  else if 5 < errorCount ∨ 1 < recordGet errorTypes ("Type Error") then .medium
  else .low

/-- The analysis record built by `analyzeErrors`, restricted to the fields
the verified properties are about.  The remaining fields of the source
record (`patterns`, `context`, `recommendations`, `errorFrequency`,
`affectedLanguages`) are each computed independently from the same
`errors` argument; `context` additionally embeds a wall-clock timestamp. -/
structure ErrorAnalysis where
  errorCount : Nat
  errorTypes : StrRecord
  severity : Severity

/-- `analyzeErrors(errors)` (the fields above). -/
def analyzeErrors (errors : List TestError) : ErrorAnalysis :=
  { errorCount := errors.length
    errorTypes := categorizeErrors errors
    severity := assessSeverity errors }

/-! Spec-side severity step function, following the spec's words:
"critical if count>15 or any Syntax Error present; else high if count>10
or Reference Error count>2; else medium if count>5 or Type Error count>1;
else low", as a function of the pair (errorCount, categoryCounts). -/

/-- Modelled from the spec: the deterministic severity step function of
(errorCount, categoryCounts). -/
def severitySpec (count : Nat) (catCount : String → Nat) : Severity :=
  if 15 < count ∨ 0 < catCount ("Syntax Error") then .critical
  else if 10 < count ∨ 2 < catCount ("Reference Error") then .high
  else if 5 < count ∨ 1 < catCount ("Type Error") then .medium
  else .low

/-! ## Record lemmas -/

theorem recordGet_recordIncr (k c : String) :
    ∀ m : StrRecord,
      recordGet (recordIncr m k) c = recordGet m c + (if c = k then 1 else 0) := by
  intro m
  induction m with
  | nil =>
    by_cases hck : c = k
    · subst hck
      simp [recordIncr, recordGet]
    · have h1 : (k == c) = false := by simp [Ne.symm hck]
      simp [recordIncr, recordGet, h1, hck]
  | cons p rest ih =>
    obtain ⟨k', v⟩ := p
    by_cases hk : k' = k
    · subst hk
      by_cases hck : c = k'
      · subst hck
        simp [recordIncr, recordGet]
      · have h1 : (k' == c) = false := by simp [Ne.symm hck]
        simp [recordIncr, recordGet, h1, hck]
    · have h2 : (k' == k) = false := by simp [hk]
      by_cases hck : c = k'
      · subst hck
        simp [recordIncr, recordGet, h2, hk]
      · have h3 : (k' == c) = false := by simp [Ne.symm hck]
        simp [recordIncr, recordGet, h2, h3, ih]

theorem recordSum_recordIncr (k : String) :
    ∀ m : StrRecord, recordSum (recordIncr m k) = recordSum m + 1 := by
  intro m
  induction m with
  | nil => simp [recordIncr, recordSum]
  | cons p rest ih =>
    obtain ⟨k', v⟩ := p
    by_cases hk : k' = k
    · subst hk
      simp [recordIncr, recordSum]
      omega
    · simp only [recordIncr, recordSum] at ih ⊢
      simp [hk, ih]
      omega

theorem categorizeErrors_append (l extra : List TestError) :
    categorizeErrors (l ++ extra) =
      extra.foldl (fun m e => recordIncr m (getErrorCategory e.message))
        (categorizeErrors l) := by
  simp [categorizeErrors, List.foldl_append]

theorem recordGet_foldl_le (c : String) :
    ∀ (extra : List TestError) (m : StrRecord),
      recordGet m c ≤
        recordGet (extra.foldl (fun m e => recordIncr m (getErrorCategory e.message)) m) c := by
  intro extra
  induction extra with
  | nil => intro m; simp
  | cons e rest ih =>
    intro m
    simp only [List.foldl_cons]
    calc recordGet m c
        ≤ recordGet (recordIncr m (getErrorCategory e.message)) c := by
          rw [recordGet_recordIncr]
          omega
      _ ≤ _ := ih _

theorem recordSum_foldl :
    ∀ (l : List TestError) (m : StrRecord),
      recordSum (l.foldl (fun m e => recordIncr m (getErrorCategory e.message)) m) =
        recordSum m + l.length := by
  intro l
  induction l with
  | nil => intro m; simp
  | cons e rest ih =>
    intro m
    simp only [List.foldl_cons, List.length_cons]
    rw [ih, recordSum_recordIncr]
    omega

/-! ## Claim theorems for the analyzer -/

/-- C8: for every non-empty error list, every error receives exactly one
category (`getErrorCategory` is a total function with fallback `Other`),
so the values of the analyzer's category-count record sum exactly to its
`errorCount`. -/
theorem categoryCounts_sum_eq_errorCount (errors : List TestError)
    (_hne : errors ≠ []) :
    recordSum (analyzeErrors errors).errorTypes = (analyzeErrors errors).errorCount := by
  have h := recordSum_foldl errors []
  simpa [analyzeErrors, categorizeErrors, recordSum] using h

/-- Sample error lists used by the concrete witnesses. -/
def demoErrors : List TestError :=
  [⟨"a.js", 3, "SyntaxError: unexpected token", "jest"⟩,
   ⟨"unknown", 0, "something odd happened", "generic"⟩]

def demoErrors2 : List TestError :=
  [⟨"b.py", 7, "SyntaxError: bad indent", "python"⟩,
   ⟨"unknown", 0, "mysterious glitch", "generic"⟩]

theorem categoryCounts_sum_witness :
    demoErrors ≠ [] ∧
      recordSum (analyzeErrors demoErrors).errorTypes =
        (analyzeErrors demoErrors).errorCount :=
  ⟨by decide, categoryCounts_sum_eq_errorCount demoErrors (by decide)⟩

/-- C4: the analyzer's severity equals the deterministic step function of
the total error count and the category counts, and it depends on nothing
besides that pair: two error lists with the same length and the same
category counts get the same severity. -/
theorem severity_is_step_function (errors : List TestError) :
    (analyzeErrors errors).severity =
        severitySpec (analyzeErrors errors).errorCount
          (recordGet (analyzeErrors errors).errorTypes) ∧
      (∀ errors2 : List TestError, errors.length = errors2.length →
        (∀ c : String,
          recordGet (categorizeErrors errors) c = recordGet (categorizeErrors errors2) c) →
        assessSeverity errors = assessSeverity errors2) := by
  constructor
  · rfl
  · intro e2 hlen hcat
    simp only [assessSeverity, hlen, hcat]

theorem severity_is_step_function_witness :
    (analyzeErrors demoErrors).severity =
        severitySpec (analyzeErrors demoErrors).errorCount
          (recordGet (analyzeErrors demoErrors).errorTypes) ∧
      assessSeverity demoErrors = assessSeverity demoErrors2 := by
  have hcat : categorizeErrors demoErrors = categorizeErrors demoErrors2 := by decide
  exact ⟨(severity_is_step_function demoErrors).1,
    (severity_is_step_function demoErrors).2 demoErrors2 (by decide)
      (fun c => by rw [hcat])⟩

theorem severitySpec_mono (n1 n2 : Nat) (f1 f2 : String → Nat)
    (hn : n1 ≤ n2) (hs : f1 ("Syntax Error") ≤ f2 ("Syntax Error"))
    (hr : f1 ("Reference Error") ≤ f2 ("Reference Error"))
    (ht : f1 ("Type Error") ≤ f2 ("Type Error")) :
    sevRank (severitySpec n1 f1) ≤ sevRank (severitySpec n2 f2) := by
  simp only [severitySpec]
  split_ifs <;> simp only [sevRank] <;> omega

/-- C9: severity is monotone under adding further errors: appending any
extra errors (which can only raise the total count and every category
count) never strictly lowers the severity in the order
low < medium < high < critical. -/
theorem assessSeverity_monotone (l extra : List TestError) :
    sevRank (assessSeverity l) ≤ sevRank (assessSeverity (l ++ extra)) := by
  have h1 : assessSeverity l = severitySpec l.length (recordGet (categorizeErrors l)) := rfl
  have h2 : assessSeverity (l ++ extra) =
      severitySpec (l ++ extra).length (recordGet (categorizeErrors (l ++ extra))) := rfl
  rw [h1, h2]
  apply severitySpec_mono
  · simp
  all_goals
    rw [categorizeErrors_append]
    exact recordGet_foldl_le _ extra _

/-! ## Output parser (`TestRunner.parseErrors`)

The four pattern families are fixed regular expressions; each is modelled
with JavaScript matching semantics: leftmost starting position, greedy
quantifiers with backtracking, alternation tried left to right, `.` not
matching line terminators, `\d+` and `\w*` as maximal runs. -/

/-- Numeric value of a digit run (`parseInt` on a `\d+` capture). -/
def digitsVal (ds : List Char) : Nat :=
  ds.foldl (fun n c => n * 10 + (c.toNat - 48)) 0

/-- Match `:(\d+):(\d+)` at the head of `l`; returns the first group. -/
def colonNumColonNum : List Char → Option Nat
  | ':' :: rest =>
    let d1 := rest.takeWhile Char.isDigit
    let r1 := rest.dropWhile Char.isDigit
    if d1.isEmpty then none
    else
      match r1 with
      | ':' :: rest2 =>
        if (rest2.takeWhile Char.isDigit).isEmpty then none else some (digitsVal d1)
      | _ => none
  | _ => none

/-- Match `:(\d+):` at the head of `l`; returns the group. -/
def colonNumColon : List Char → Option Nat
  | ':' :: rest =>
    let d1 := rest.takeWhile Char.isDigit
    let r1 := rest.dropWhile Char.isDigit
    if d1.isEmpty then none
    else
      match r1 with
      | ':' :: _ => some (digitsVal d1)
      | _ => none
  | _ => none

/-- Greedy `(.+)` followed by `tail`, at a fixed starting position: try
the longest prefix of dot-characters first and backtrack to shorter ones.
The `Nat` argument is the prefix length currently tried. -/
def greedyDot {β : Type} (tail : List Char → Option β) (l : List Char) :
    Nat → Option (List Char × β)
  | 0 => none
  | k + 1 =>
    let x := l.take (k + 1)
    if x.all isDotChar then
      match tail (l.drop (k + 1)) with
      | some b => some (x, b)
      | none => greedyDot tail l k
    else greedyDot tail l k

/-- Leftmost starting position: try the matcher at every suffix, first
success wins. -/
def searchPositions {β : Type} (f : List Char → Option β) : List Char → Option β
  | [] => f []
  | l@(_ :: rest) =>
    match f l with
    | some b => some b
    | none => searchPositions f rest

/-- `at (.+):(\d+):(\d+)` anchored at one position. -/
def atPatHere (l : List Char) : Option (List Char × Nat) :=
  if (['a', 't', ' ']).isPrefixOf l then
    let rest := l.drop 3
    greedyDot colonNumColonNum rest rest.length
  else none

/-- Alternation `(?:ext1|ext2|…)` followed by `tail`, tried in order. -/
def tryExts (tail : List Char → Option Nat) :
    List (List Char) → List Char → Option (List Char × Nat)
  | [], _ => none
  | ext :: more, r =>
    if ext.isPrefixOf r then
      match tail (r.drop ext.length) with
      | some n => some (ext, n)
      | none => tryExts tail more r
    else tryExts tail more r

/-- `(.+\.(?:…)) tail` anchored at one position; the captured group is
the dot-prefix together with the dot and the extension. -/
def extPatHere (exts : List (List Char)) (tail : List Char → Option Nat)
    (l : List Char) : Option (List Char × Nat) :=
  match greedyDot
      (fun r =>
        match r with
        | '.' :: r2 => tryExts tail exts r2
        | _ => none)
      l l.length with
  | some (x0, (ext, n)) => some (x0 ++ '.' :: ext, n)
  | none => none

/-- Tail of the Python traceback pattern: `", line (\d+)`. -/
def pyFileTail (r : List Char) : Option Nat :=
  let lit := ['"', ',', ' ', 'l', 'i', 'n', 'e', ' ']
  if lit.isPrefixOf r then
    let d := (r.drop lit.length).takeWhile Char.isDigit
    if d.isEmpty then none else some (digitsVal d)
  else none

/-- `File "(.+)", line (\d+)` anchored at one position. -/
def pyFileHere (l : List Char) : Option (List Char × Nat) :=
  if (['F', 'i', 'l', 'e', ' ', '"']).isPrefixOf l then
    let rest := l.drop 6
    greedyDot pyFileTail rest rest.length
  else none

/-- `line.match(at-pattern) || line.match(bare-js-file-pattern)`. -/
def jestMatch (line : String) : Option (String × Nat) :=
  match searchPositions atPatHere line.toList with
  | some fl => some (String.mk fl.1, fl.2)
  | none =>
    match searchPositions
        (extPatHere
          [['j', 's'], ['t', 's'], ['j', 's', 'x'], ['t', 's', 'x']]
          colonNumColonNum)
        line.toList with
    | some fl => some (String.mk fl.1, fl.2)
    | none => none

/-- `line.match(File-pattern) || line.match(py-file-pattern)`. -/
def pythonMatch (line : String) : Option (String × Nat) :=
  match searchPositions pyFileHere line.toList with
  | some fl => some (String.mk fl.1, fl.2)
  | none =>
    match searchPositions (extPatHere [['p', 'y']] colonNumColon) line.toList with
    | some fl => some (String.mk fl.1, fl.2)
    | none => none

/-- `line.match(go-file-pattern)`. -/
def goMatch (line : String) : Option (String × Nat) :=
  match searchPositions (extPatHere [['g', 'o']] colonNumColon) line.toList with
  | some fl => some (String.mk fl.1, fl.2)
  | none => none

/-- `a.*b` starting right here: a run of dot-characters, then `b`. -/
def dotThen (b : List Char) : List Char → Bool
  | [] => b.isEmpty
  | l@(c :: rest) => b.isPrefixOf l || (isDotChar c && dotThen b rest)

/-- Existence of a match of `a.*b` anywhere in `l`. -/
def seqContains (a b : List Char) : List Char → Bool
  | [] => a.isEmpty && dotThen b []
  | l@(_ :: rest) =>
    (a.isPrefixOf l && dotThen b (l.drop a.length)) || seqContains a b rest

/-- `isErrorLine(line)`: the fixed battery of generic error regexes
(keyword ones case-insensitive, the two glyph ones literal). -/
def isErrorLine (line : String) : Bool :=
  let l := line.toList
  let low := l.map Char.toLower
  listInfix (("error:").toList) low || listInfix (("fail").toList) low ||
  l.contains '✕' || l.contains '✗' ||
  listInfix (("exception").toList) low ||
  seqContains (("assertion").toList) (("error").toList) low ||
  seqContains (("reference").toList) (("error").toList) low ||
  seqContains (("type").toList) (("error").toList) low ||
  seqContains (("syntax").toList) (("error").toList) low ||
  seqContains (("runtime").toList) (("error").toList) low

/-- `getContextualError(lines, i)`: the matched line joined with one line
of context on each side, trimmed. -/
def getContextualError (lines : List String) (i : Nat) : String :=
  jsTrim (joinNl ((lines.take (min lines.length (i + 2))).drop (i - 1)))

/-- The body of the parser's `for` loop over indexed lines: per line the
families are attempted in source order, the first match pushes exactly
one `TestError` and continues with the next line. -/
def parseErrorsGo (lines : List String) : List (Nat × String) → List TestError
  | [] => []
  | (i, line) :: rest =>
    match jestMatch line with
    | some fl =>
      ⟨fl.1, fl.2, getContextualError lines i, "jest"⟩ :: parseErrorsGo lines rest
    | none =>
      match pythonMatch line with
      | some fl =>
        ⟨fl.1, fl.2, getContextualError lines i, "python"⟩ :: parseErrorsGo lines rest
      | none =>
        match goMatch line with
        | some fl =>
          ⟨fl.1, fl.2, getContextualError lines i, "go"⟩ :: parseErrorsGo lines rest
        | none =>
          if isErrorLine line then
            ⟨"unknown", 0, jsTrim line, "generic"⟩ :: parseErrorsGo lines rest
          else parseErrorsGo lines rest

/-- `parseErrors(output)`: split on newlines and scan. -/
def parseErrors (output : String) : List TestError :=
  parseErrorsGo (linesOf output) (linesOf output).enum

/-! Spec-side description of the parser, following the spec's words: each
line yields at most one `TestError`, chosen by trying the pattern
families in the fixed priority order JS/TS stack frame ("jest"), Python
traceback ("python"), Go ("go"), then generic error line (file "unknown",
line 0, "generic"), stopping at the first family that matches. -/

def jestFamily (lines : List String) (i : Nat) (line : String) : Option TestError :=
  (jestMatch line).map fun fl => ⟨fl.1, fl.2, getContextualError lines i, "jest"⟩

def pythonFamily (lines : List String) (i : Nat) (line : String) : Option TestError :=
  (pythonMatch line).map fun fl => ⟨fl.1, fl.2, getContextualError lines i, "python"⟩

def goFamily (lines : List String) (i : Nat) (line : String) : Option TestError :=
  (goMatch line).map fun fl => ⟨fl.1, fl.2, getContextualError lines i, "go"⟩

def genericFamily (line : String) : Option TestError :=
  if isErrorLine line then some ⟨"unknown", 0, jsTrim line, "generic"⟩ else none

/-- Modelled from the spec: one line's classification by family priority. -/
def parseLineSpec (lines : List String) (i : Nat) (line : String) : Option TestError :=
  (jestFamily lines i line).orElse fun _ =>
    (pythonFamily lines i line).orElse fun _ =>
      (goFamily lines i line).orElse fun _ => genericFamily line

/-- One loop iteration performs exactly the per-line priority
classification. -/
theorem parseErrorsGo_cons (lines : List String) (i : Nat) (line : String)
    (rest : List (Nat × String)) :
    parseErrorsGo lines ((i, line) :: rest) =
      (match parseLineSpec lines i line with
       | some e => e :: parseErrorsGo lines rest
       | none => parseErrorsGo lines rest) := by
  simp only [parseErrorsGo, parseLineSpec, jestFamily, pythonFamily, goFamily,
    genericFamily]
  cases h1 : jestMatch line <;> cases h2 : pythonMatch line <;>
    cases h3 : goMatch line <;> by_cases h4 : isErrorLine line <;>
    simp [h1, h2, h3, h4, Option.orElse]

/-- C3: the parser is a single line-ordered pass in which every line
yields at most one `TestError`, chosen by trying the families in the
fixed priority order jest, python, go, generic and stopping at the first
match; consequently the error sequence is the priority classification of
the numbered lines in output order, and never longer than the line list. -/
theorem parseErrors_line_structure (output : String) :
    parseErrors output =
        (linesOf output).enum.filterMap
          (fun p => parseLineSpec (linesOf output) p.1 p.2) ∧
      (parseErrors output).length ≤ (linesOf output).length := by
  have key : ∀ (lines : List String) (ps : List (Nat × String)),
      parseErrorsGo lines ps = ps.filterMap (fun p => parseLineSpec lines p.1 p.2) := by
    intro lines ps
    induction ps with
    | nil => rfl
    | cons p rest ih =>
      obtain ⟨i, line⟩ := p
      rw [parseErrorsGo_cons, List.filterMap_cons, ih]
      cases parseLineSpec lines i line <;> simp
  have hp : parseErrors output = parseErrorsGo (linesOf output) (linesOf output).enum := rfl
  refine ⟨by rw [hp]; exact key _ _, ?_⟩
  rw [hp, key]
  calc ((linesOf output).enum.filterMap
          (fun p => parseLineSpec (linesOf output) p.1 p.2)).length
      ≤ (linesOf output).enum.length := List.length_filterMap_le _ _
    _ = (linesOf output).length := List.enum_length

/-! ## Test executor (`TestRunner.runTests`) -/

/-- The fixed failure-indicator substrings. -/
def failureIndicators : List String :=
  ["FAILED", "FAIL", "failed", "Error:", "AssertionError",
   "TypeError", "ReferenceError", "SyntaxError", "✕", "✗",
   "test failed", "tests failed", "failure", "failures"]

/-- `containsTestFailures(output)`: some indicator occurs, both sides
lower-cased. -/
def containsTestFailures (output : String) : Bool :=
  failureIndicators.any fun indicator =>
    strIncludes (jsToLower output) (jsToLower indicator)

/-- `TestResults` record. -/
structure TestResults where
  hasErrors : Bool
  errors : List TestError
  output : String

/-- Host outcome of `execAsync`: a benign exit with the captured streams,
or a thrown failure (non-zero exit, timeout, spawn error) carrying the
partial streams already coalesced with the empty string and the error
message. -/
inductive ExecResult where
  | ok (stdout stderr : String)
  | err (stdout stderr message : String)
deriving DecidableEq

/-- Whether the subprocess ended by throwing. -/
def isThrown : ExecResult → Bool
  | .ok _ _ => false
  | .err _ _ _ => true

/-- The captured stderr stream. -/
def stderrOf : ExecResult → String
  | .ok _ e => e
  | .err _ e _ => e

/-- The concatenated stdout+stderr stream. -/
def combinedOutput : ExecResult → String
  | .ok o e => o ++ e
  | .err o e _ => o ++ e

/-- `runTests` from the point where the resolved command has been
executed (the method first resolves the command via `getTestCommand` and
returns the fixed no-framework result when that is null). -/
def runTests (res : ExecResult) : TestResults :=
  match res with
  | .ok stdout stderr =>
    let output := stdout ++ stderr
    { hasErrors := decide (0 < stderr.length) || containsTestFailures output
      errors := parseErrors output
      output := output }
  | .err stdout stderr message =>
    let errorOutput := stdout ++ stderr
    { hasErrors := true
      errors := parseErrors (errorOutput ++ message)
      output := if errorOutput.isEmpty then message else errorOutput }

/-- C10: when the subprocess completes without throwing but writes any
character to stderr, the run is reported as erroring regardless of the
failure indicators. -/
theorem stderr_nonempty_forces_hasErrors (stdout stderr : String)
    (h : stderr ≠ "") :
    (runTests (ExecResult.ok stdout stderr)).hasErrors = true := by
  have hlen : 0 < stderr.length := by
    rcases stderr with ⟨data⟩
    cases data with
    | nil => exact absurd rfl h
    | cons c cs => simp [String.length]
  simp [runTests, hlen]

theorem stderr_nonempty_forces_hasErrors_witness :
    (runTests (ExecResult.ok ("1 test passed") ("DeprecationWarning: soon"))).hasErrors
      = true :=
  stderr_nonempty_forces_hasErrors ("1 test passed") ("DeprecationWarning: soon")
    (by decide)

/-- C2 counterexample: a benign exit whose combined output contains no
failure indicator still reports hasErrors because stderr is non-empty, so
"failure exit or indicator present" is not equivalent to hasErrors. -/
theorem runTests_hasErrors_iff_cex :
    (runTests (ExecResult.ok ("") ("wrote 3 bytes"))).hasErrors = true ∧
      isThrown (ExecResult.ok ("") ("wrote 3 bytes")) = false ∧
      containsTestFailures (combinedOutput (ExecResult.ok ("") ("wrote 3 bytes"))) =
        false := by
  refine ⟨?_, rfl, ?_⟩ <;> decide

/-- C2 (amended): a run is reported as erroring exactly when the process
threw, or stderr is non-empty, or the combined output contains a failure
indicator (case-insensitively); in particular a benign exit whose output
contains "2 failing" still reports hasErrors. -/
theorem runTests_hasErrors_iff (res : ExecResult) :
    ((runTests res).hasErrors = true ↔
        isThrown res = true ∨ stderrOf res ≠ "" ∨
          containsTestFailures (combinedOutput res) = true) ∧
      (runTests (ExecResult.ok ("2 failing") (""))).hasErrors = true := by
  refine ⟨?_, by decide⟩
  cases res with
  | ok o e =>
    simp only [runTests, isThrown, stderrOf, combinedOutput, Bool.or_eq_true,
      decide_eq_true_eq, Bool.false_eq_true, false_or]
    constructor
    · rintro (hlen | hc)
      · left
        intro he
        rw [he] at hlen
        simp [String.length] at hlen
      · right; exact hc
    · rintro (hne | hc)
      · left
        rcases e with ⟨data⟩
        cases data with
        | nil => exact absurd rfl hne
        | cons c cs => simp [String.length]
      · right; exact hc
  | err o e m =>
    simp [runTests, isThrown]

/-! ## Framework detector (`TestRunner.detectAllFrameworks`)

The host boundary is an explicit workspace environment: `stat`,
`readFile` and `readdir` are the filesystem oracles (workspace-rooted
names, `path.join` elided), `parseJson` models the `JSON.parse` builtin,
and `win32` is the platform flag.  A manifest is abstracted to the two
observations the code makes of it: a truthy `scripts.test` entry and the
merged dependency names. -/

/-- The observations `detectAllFrameworks` makes of a parsed manifest. -/
structure PackageJson where
  scriptsTest : Bool
  deps : List String

/-- The host environment of one detection pass. -/
structure Workspace where
  win32 : Bool
  stat : String → Except String Unit
  readFile : String → Except String String
  readdir : Except String (List String)
  parseJson : String → Except String PackageJson

/-- `getNodeCommand`: on win32 rewrite the first `npm`/`npx` occurrence. -/
def getNodeCommand (ws : Workspace) (command : String) : String :=
  if ws.win32 then
    String.mk (replaceFirst
      (replaceFirst command.toList (("npm").toList) (("npm.cmd").toList))
      (("npx").toList) (("npx.cmd").toList))
  else command

/-- `getPythonCommand`: platform-specific python executable. -/
def getPythonCommand (ws : Workspace) (command : String) : String :=
  if ws.win32 then
    String.mk (replaceFirst command.toList (("python").toList) (("python.exe").toList))
  else
    String.mk (replaceFirst command.toList (("python").toList) (("python3").toList))

/-- `fileExists`: a failed `stat` is swallowed and reported as absence. -/
def fileExists (ws : Workspace) (filePath : String) : Bool :=
  match ws.stat filePath with
  | .ok _ => true
  | .error _ => false

/-- `findPythonTestFiles`: a failed `readdir` is swallowed; otherwise
filter by the test-file naming convention. -/
def findPythonTestFiles (ws : Workspace) : List String :=
  match ws.readdir with
  | .ok files =>
    files.filter fun file =>
      (file.startsWith ("test_") && file.endsWith (".py")) || file.endsWith ("_test.py")
  | .error _ => []

/-- The candidate constants pushed by the detection pass. -/
def npmTestFw (ws : Workspace) : DetectedFramework :=
  ⟨"npm test (package.json script)", getNodeCommand ws ("npm test"), 95 / 100⟩

def jestFw (ws : Workspace) : DetectedFramework :=
  ⟨"Jest", getNodeCommand ws ("npx jest --no-coverage --passWithNoTests"), 9 / 10⟩

def mochaFw (ws : Workspace) : DetectedFramework :=
  ⟨"Mocha", getNodeCommand ws ("npx mocha"), 85 / 100⟩

def vitestFw (ws : Workspace) : DetectedFramework :=
  ⟨"Vitest", getNodeCommand ws ("npx vitest run"), 85 / 100⟩

def playwrightFw (ws : Workspace) : DetectedFramework :=
  ⟨"Playwright", getNodeCommand ws ("npx playwright test"), 8 / 10⟩

def cypressFw (ws : Workspace) : DetectedFramework :=
  ⟨"Cypress", getNodeCommand ws ("npx cypress run"), 8 / 10⟩

def pytestConfigFw (ws : Workspace) : DetectedFramework :=
  ⟨"pytest (detected config)", getPythonCommand ws ("python -m pytest -v --tb=short"),
    9 / 10⟩

def pytestFilesFw (ws : Workspace) (n : Nat) : DetectedFramework :=
  ⟨"pytest (" ++ toString n ++ " test files found)",
    getPythonCommand ws ("python -m pytest -v --tb=short"), 8 / 10⟩

def goTestFw : DetectedFramework :=
  ⟨"Go test", "go test ./...", 9 / 10⟩

def cargoTestFw : DetectedFramework :=
  ⟨"Cargo test", "cargo test", 9 / 10⟩

/-- The manifest block's pushes, in source order. -/
def npmCandidates (ws : Workspace) (packageJson : PackageJson) : List DetectedFramework :=
  (if packageJson.scriptsTest then [npmTestFw ws] else []) ++
  (if packageJson.deps.contains ("jest") then [jestFw ws] else []) ++
  (if packageJson.deps.contains ("mocha") then [mochaFw ws] else []) ++
  (if packageJson.deps.contains ("vitest") then [vitestFw ws] else []) ++
  (if packageJson.deps.contains ("@playwright/test") then [playwrightFw ws] else []) ++
  (if packageJson.deps.contains ("cypress") then [cypressFw ws] else [])

/-- The detection pass after the manifest block: the Python, Go and Rust
signal sources, each appending its candidates to the array. -/
def afterManifest (ws : Workspace) (fws : List DetectedFramework) :
    List DetectedFramework :=
  let fws1 :=
    if fileExists ws ("pytest.ini") || fileExists ws ("requirements.txt") then
      fws ++ [pytestConfigFw ws]
    else fws
  let pythonTestFiles := findPythonTestFiles ws
  let fws2 :=
    if 0 < pythonTestFiles.length then fws1 ++ [pytestFilesFw ws pythonTestFiles.length]
    else fws1
  let fws3 := if fileExists ws ("go.mod") then fws2 ++ [goTestFw] else fws2
  if fileExists ws ("Cargo.toml") then fws3 ++ [cargoTestFw] else fws3

/-- The try-block of `detectAllFrameworks`.  The candidate array is
declared outside the single try, so an error thrown by the manifest read
or by `JSON.parse` is caught by the one catch and leaves only the
candidates pushed before the throw (none), skipping every remaining
signal source; `fileExists` and `findPythonTestFiles` swallow their own
errors and cannot throw. -/
def detectCollect (ws : Workspace) : List DetectedFramework :=
  if fileExists ws ("package.json") then
    match ws.readFile ("package.json") with
    | .error _ => []
    | .ok fileContent =>
      match ws.parseJson fileContent with
      | .error _ => []
      | .ok packageJson => afterManifest ws (npmCandidates ws packageJson)
  else afterManifest ws []

/-- Stable insertion into a confidence-descending list: the new element
goes after every element of strictly greater confidence and before the
first of smaller or equal confidence. -/
def insertByConfidence (fw : DetectedFramework) :
    List DetectedFramework → List DetectedFramework
  | [] => [fw]
  | x :: rest =>
    if x.confidence ≤ fw.confidence then fw :: x :: rest
    else x :: insertByConfidence fw rest

/-- Stable sort descending by confidence.  JavaScript's `Array.sort` is
stable and the comparator is a total preorder, which pins the result down
uniquely; insertion sort realises it. -/
def sortByConfidence : List DetectedFramework → List DetectedFramework
  | [] => []
  | x :: rest => insertByConfidence x (sortByConfidence rest)

/-- `detectAllFrameworks(workspacePath)`. -/
def detectAllFrameworks (ws : Workspace) : List DetectedFramework :=
  sortByConfidence (detectCollect ws)

theorem mem_insertByConfidence (a fw : DetectedFramework) :
    ∀ l, a ∈ insertByConfidence fw l ↔ a = fw ∨ a ∈ l := by
  intro l
  induction l with
  | nil => simp [insertByConfidence]
  | cons x rest ih =>
    simp only [insertByConfidence]
    split_ifs <;> (simp [ih]; try tauto)

theorem mem_sortByConfidence (a : DetectedFramework) :
    ∀ l, a ∈ sortByConfidence l ↔ a ∈ l := by
  intro l
  induction l with
  | nil => simp [sortByConfidence]
  | cons x rest ih =>
    simp [sortByConfidence, mem_insertByConfidence, ih]

theorem mem_afterManifest_of_mem (ws : Workspace) (fws : List DetectedFramework)
    (x : DetectedFramework) (h : x ∈ fws) : x ∈ afterManifest ws fws := by
  simp only [afterManifest]
  split_ifs <;> simp [List.mem_append, h]

/-- The broken-manifest workspace: `go.mod` is present and its probe
succeeds, but reading `package.json` (which exists) throws. -/
def brokenManifestWorkspace : Workspace :=
  { win32 := false
    stat := fun p =>
      if p == ("package.json") || p == ("go.mod") then Except.ok ()
      else Except.error ("ENOENT")
    readFile := fun _ => Except.error ("EACCES: permission denied")
    readdir := Except.ok []
    parseJson := fun _ => Except.error ("unexpected token") }

/-- C5 counterexample: an I/O error on one signal source (the manifest
read) aborts the inspection of the others — with `go.mod` present and
probed successfully, the pass returns no candidates at all, so the Go
source did not contribute. -/
theorem detect_partial_failure_cex :
    fileExists brokenManifestWorkspace ("go.mod") = true ∧
      detectAllFrameworks brokenManifestWorkspace = [] := by
  exact ⟨rfl, rfl⟩

/-- The manifest step does not throw: either `package.json` is absent, or
the read and the parse both succeed. -/
def manifestSafe (ws : Workspace) : Prop :=
  fileExists ws ("package.json") = false ∨
    (∃ content pkg, ws.readFile ("package.json") = Except.ok content ∧
      ws.parseJson content = Except.ok pkg)

/-- C5 (amended): errors raised by the individual `stat` probes and by
the Python test-file scan are swallowed locally and never abort
detection, but an error thrown while reading or parsing the manifest
aborts the remaining signal sources and yields only the candidates
collected before it.  Whenever the manifest step does not throw, every
other firing signal source still contributes its candidate, regardless
of errors in the remaining probes. -/
theorem detect_partial_failure_amended (ws : Workspace) (hm : manifestSafe ws) :
    (fileExists ws ("go.mod") = true → goTestFw ∈ detectAllFrameworks ws) ∧
    (fileExists ws ("Cargo.toml") = true → cargoTestFw ∈ detectAllFrameworks ws) ∧
    ((fileExists ws ("pytest.ini") || fileExists ws ("requirements.txt")) = true →
      pytestConfigFw ws ∈ detectAllFrameworks ws) ∧
    (0 < (findPythonTestFiles ws).length →
      pytestFilesFw ws (findPythonTestFiles ws).length ∈ detectAllFrameworks ws) ∧
    (∀ content pkg, ws.readFile ("package.json") = Except.ok content →
      ws.parseJson content = Except.ok pkg → fileExists ws ("package.json") = true →
      (pkg.scriptsTest = true → npmTestFw ws ∈ detectAllFrameworks ws) ∧
      (pkg.deps.contains ("jest") = true → jestFw ws ∈ detectAllFrameworks ws)) := by
  have hcol : ∃ fws0, detectCollect ws = afterManifest ws fws0 := by
    cases hfe : fileExists ws ("package.json") with
    | false => exact ⟨[], by simp [detectCollect, hfe]⟩
    | true =>
      rcases hm with hm | ⟨content, pkg, hr, hp⟩
      · rw [hm] at hfe
        cases hfe
      · exact ⟨npmCandidates ws pkg, by simp [detectCollect, hfe, hr, hp]⟩
  obtain ⟨fws0, hfws0⟩ := hcol
  have hdet : ∀ x : DetectedFramework,
      x ∈ afterManifest ws fws0 → x ∈ detectAllFrameworks ws := by
    intro x hx
    rw [detectAllFrameworks, mem_sortByConfidence, hfws0]
    exact hx
  refine ⟨?_, ?_, ?_, ?_, ?_⟩
  · intro h
    refine hdet _ ?_
    simp only [afterManifest, h]
    split_ifs <;> simp [List.mem_append]
  · intro h
    refine hdet _ ?_
    simp only [afterManifest, h]
    split_ifs <;> simp [List.mem_append]
  · intro h
    refine hdet _ ?_
    simp only [afterManifest, h]
    split_ifs <;> simp [List.mem_append]
  · intro h
    refine hdet _ ?_
    simp only [afterManifest, if_pos h]
    split_ifs <;> simp [List.mem_append]
  · intro content pkg hr hp hfe
    have hcol2 : detectCollect ws = afterManifest ws (npmCandidates ws pkg) := by
      simp [detectCollect, hfe, hr, hp]
    have hdet2 : ∀ x : DetectedFramework,
        x ∈ npmCandidates ws pkg → x ∈ detectAllFrameworks ws := by
      intro x hx
      rw [detectAllFrameworks, mem_sortByConfidence, hcol2]
      exact mem_afterManifest_of_mem ws _ x hx
    constructor
    · intro hs
      refine hdet2 _ ?_
      simp [npmCandidates, hs]
    · intro hj
      refine hdet2 _ ?_
      simp only [npmCandidates, List.mem_append, List.mem_singleton]
      have : ("jest" : String) ∈ pkg.deps := List.mem_of_elem_eq_true hj
      simp [this]

/-- A workspace whose every probe fails except the `go.mod` one. -/
def flakyWorkspace : Workspace :=
  { win32 := false
    stat := fun p => if p == ("go.mod") then Except.ok () else Except.error ("EPERM")
    readFile := fun _ => Except.error ("EPERM")
    readdir := Except.error ("EPERM")
    parseJson := fun _ => Except.error ("EPERM") }

theorem detect_partial_failure_amended_witness :
    goTestFw ∈ detectAllFrameworks flakyWorkspace :=
  (detect_partial_failure_amended flakyWorkspace (Or.inl (by decide))).1 (by decide)

/-! ## Framework selector (`TestRunner.getTestCommand`)

The selector is stateful through the private `selectedFramework` field;
it is modelled by explicit state passing: each operation takes the
current field value and returns the pair (returned command, field value
afterwards).  The interactive QuickPick is modelled by the human's
choice: `none` for a dismissed prompt, `some idx` for the picked item's
index in the shown candidate list.  In the source, "locked in" is
represented by `selectedFramework` being truthy, i.e. a non-null and
non-empty string. -/

/-- `showFrameworkPicker(frameworks)`: a selection locks the chosen
command in and returns it; dismissal returns null and leaves the field
untouched. -/
def showFrameworkPicker (frameworks : List DetectedFramework)
    (selectedFramework : Option String) (choice : Option Nat) :
    Option String × Option String :=
  match choice with
  | none => (none, selectedFramework)
  | some idx =>
    match frameworks.get? idx with
    | none => (none, selectedFramework)
    | some fw => (some fw.command, some fw.command)

/-- The detection tail of `getTestCommand` (steps 3-5). -/
def getTestCommandDetect (ws : Workspace) (selectedFramework : Option String)
    (choice : Option Nat) : Option String × Option String :=
  match detectAllFrameworks ws with
  | [] => (none, selectedFramework)
  | [fw] => (some fw.command, some fw.command)
  | fws => showFrameworkPicker fws selectedFramework choice

/-- `getTestCommand(workspacePath)`: custom command override first, then
the session lock, then detection. -/
def getTestCommand (customTestCommand : String) (selectedFramework : Option String)
    (ws : Workspace) (choice : Option Nat) : Option String × Option String :=
  let customCommand := jsTrim customTestCommand
  if customCommand ≠ "" then (some customCommand, selectedFramework)
  else
    match selectedFramework with
    | some cmd =>
      if cmd ≠ "" then (some cmd, selectedFramework)
      else getTestCommandDetect ws selectedFramework choice
    | none => getTestCommandDetect ws none choice

/-- No lock is in place (the source's falsy field: null or empty). -/
def noLock (selectedFramework : Option String) : Prop :=
  selectedFramework = none ∨ selectedFramework = some ""

/-- C1: the selector resolves by strict priority.  (1) A custom command
that trims non-empty is returned outright whatever the lock state and
detection results; (2) otherwise a locked-in session command is returned
verbatim; (3) otherwise a unique detected candidate is locked in and
returned without consulting the prompt; (4) with two or more candidates
the result is the prompt's outcome, and a dismissed prompt yields null
with nothing locked in; (5) with zero candidates the result is null. -/
theorem getTestCommand_priority (custom : String) (st : Option String)
    (ws : Workspace) (choice : Option Nat) :
    (jsTrim custom ≠ "" →
      getTestCommand custom st ws choice = (some (jsTrim custom), st)) ∧
    (jsTrim custom = "" → ∀ cmd, st = some cmd → cmd ≠ "" →
      getTestCommand custom st ws choice = (some cmd, st)) ∧
    (jsTrim custom = "" → noLock st → ∀ fw, detectAllFrameworks ws = [fw] →
      getTestCommand custom st ws choice = (some fw.command, some fw.command)) ∧
    (jsTrim custom = "" → noLock st → 2 ≤ (detectAllFrameworks ws).length →
      getTestCommand custom st ws choice =
          showFrameworkPicker (detectAllFrameworks ws) st choice ∧
        (choice = none → getTestCommand custom st ws choice = (none, st))) ∧
    (jsTrim custom = "" → noLock st → detectAllFrameworks ws = [] →
      getTestCommand custom st ws choice = (none, st)) := by
  refine ⟨?_, ?_, ?_, ?_, ?_⟩
  · intro h
    simp [getTestCommand, h]
  · intro h0 cmd hst hcmd
    subst hst
    simp [getTestCommand, h0, hcmd]
  · intro h0 hst fw hdet
    rcases hst with hst | hst <;> subst hst <;>
      simp [getTestCommand, h0, getTestCommandDetect, hdet]
  · intro h0 hst hlen
    have hpick : getTestCommand custom st ws choice =
        showFrameworkPicker (detectAllFrameworks ws) st choice := by
      rcases hst with hst | hst <;> subst hst <;>
        (simp only [getTestCommand, h0, ne_eq, not_true_eq_false, if_false,
          getTestCommandDetect]
         rcases hdet : detectAllFrameworks ws with _ | ⟨a, _ | ⟨b, t⟩⟩ <;>
           simp_all)
    refine ⟨hpick, fun hch => ?_⟩
    rw [hpick, hch]
    rfl
  · intro h0 hst hdet
    rcases hst with hst | hst <;> subst hst <;>
      simp [getTestCommand, h0, getTestCommandDetect, hdet]

/-- A workspace with no detectable framework at all. -/
def emptyWorkspaceCheck : Workspace :=
  { win32 := false
    stat := fun _ => Except.error ("ENOENT")
    readFile := fun _ => Except.error ("ENOENT")
    readdir := Except.error ("ENOENT")
    parseJson := fun _ => Except.error ("not json") }

theorem getTestCommand_priority_witness :
    getTestCommand ("pytest -q") (some ("npx jest")) emptyWorkspaceCheck none =
      (some ("pytest -q"), some ("npx jest")) := by
  have h := (getTestCommand_priority ("pytest -q") (some ("npx jest"))
    emptyWorkspaceCheck none).1 (by decide)
  rw [(by decide : jsTrim ("pytest -q") = "pytest -q")] at h
  exact h

/-! ## Suggestion orchestrator (`AITestingService`) -/

/-- `AISuggestion` record. -/
structure AISuggestion where
  service : String
  suggestion : String
  fix : Option String
  confidence : ℚ
deriving DecidableEq

/-- `extractSuggestion(text)`: the chunk before the first fence, capped
at 300 characters, trimmed. -/
def extractSuggestion (text : String) : String :=
  String.mk (trimChars (((splitFence text.toList).headD text.toList).take 300))

/-- One optional newline, as consumed by `\n?`. -/
def dropNl : List Char → List Char
  | '\n' :: r => r
  | l => l

/-- The global replace of the fence-stripping pattern: scan left to
right; a fence is consumed together with a trailing word-character run
and an optional newline; a newline directly followed by a fence is
consumed with it; every other character is kept.  Structural recursion on
a character budget (each step consumes at least one character, so a
budget of the input length is never exhausted). -/
def stripFencesAux : Nat → List Char → List Char
  | 0, _ => []
  | fuel + 1, l =>
    match l with
    | [] => []
    | c :: rest =>
      if (['`', '`', '`']).isPrefixOf (c :: rest) then
        stripFencesAux fuel (dropNl ((rest.drop 2).dropWhile isWordChar))
      else if c == '\n' && (['`', '`', '`']).isPrefixOf rest then
        stripFencesAux fuel (rest.drop 3)
      else c :: stripFencesAux fuel rest

def stripFences (l : List Char) : List Char :=
  stripFencesAux l.length l

/-- The first (lazy, non-overlapping) ``` … ``` block of the text, fence
markers included, if a closing fence exists. -/
def firstFencedBlock (l : List Char) : Option (List Char) :=
  match findOcc (['`', '`', '`']) l with
  | none => none
  | some i =>
    match findOcc (['`', '`', '`']) ((l.drop i).drop 3) with
    | none => none
    | some j => some ((l.drop i).take (3 + j + 3))

/-- The `cleanedBlock` intermediate of `extractCodeFix`: the first block
with fence markers stripped, trimmed. -/
def cleanedFirstBlock (text : String) : Option String :=
  (firstFencedBlock text.toList).map fun block => String.mk (trimChars (stripFences block))

/-- `extractCodeFix(text)`: the cleaned block, kept only when its length
exceeds 10. -/
def extractCodeFix (text : String) : Option String :=
  match cleanedFirstBlock text with
  | none => none
  | some cleanedBlock =>
    if 10 < cleanedBlock.length then some cleanedBlock else none

/-- Host outcome of one backend call, as observed through the try/catch
of the `get…Suggestion` methods: the stored credential may be absent, the
HTTP call may throw (timeout or transport failure), the response may
carry no text, or a text is returned. -/
inductive BackendOutcome where
  | missingKey
  | transportError (message : String)
  | noText
  | ok (text : String)

/-- The failure modes named by the claim: a thrown call or a missing
credential. -/
def backendFails : BackendOutcome → Prop
  | .missingKey => True
  | .transportError _ => True
  | .noText => False
  | .ok _ => False

/-- Shared shape of the three backend methods: every failure mode
resolves to null, a returned text is split into suggestion and optional
code fix with the service's name and confidence constant. -/
def runBackend (service : String) (confidence : ℚ) : BackendOutcome → Option AISuggestion
  | .missingKey => none
  | .transportError _ => none
  | .noText => none
  | .ok text =>
    some { service := service
           suggestion := extractSuggestion text
           fix := extractCodeFix text
           confidence := confidence }

def getGeminiSuggestion : BackendOutcome → Option AISuggestion :=
  runBackend ("Gemini") (8 / 10)

def getOpenAISuggestion : BackendOutcome → Option AISuggestion :=
  runBackend ("ChatGPT") (85 / 100)

def getClaudeSuggestion : BackendOutcome → Option AISuggestion :=
  runBackend ("Claude") (9 / 10)

/-- The configuration and host outcomes of one suggestion batch. -/
structure AIEnv where
  enabledServices : List String
  gemini : BackendOutcome
  openai : BackendOutcome
  claude : BackendOutcome

/-- `getSuggestions`: issue one call per enabled backend in the fixed
gemini, openai, claude order, await settlement of the whole batch (every
call resolves, failures resolving to null), and collect the non-null
values in batch order. -/
def getSuggestions (env : AIEnv) : List AISuggestion :=
  ((if env.enabledServices.contains ("gemini") then [getGeminiSuggestion env.gemini] else []) ++
   (if env.enabledServices.contains ("openai") then [getOpenAISuggestion env.openai] else []) ++
   (if env.enabledServices.contains ("claude") then [getClaudeSuggestion env.claude] else [])).filterMap id

theorem runBackend_fails_eq_none (service : String) (confidence : ℚ)
    (o : BackendOutcome) (h : backendFails o) :
    runBackend service confidence o = none := by
  cases o with
  | missingKey => rfl
  | transportError m => rfl
  | noText => exact h.elim
  | ok t => exact h.elim

/-- C6: the batch is isolated per backend — with all three enabled, a
timeout or transport failure of one call, or its missing credential
(which resolves to null), does not prevent the other two backends'
suggestions from being collected: the result is exactly the other two
entries, in batch order. -/
theorem getSuggestions_isolated (env : AIEnv)
    (hg : env.enabledServices.contains ("gemini") = true)
    (ho : env.enabledServices.contains ("openai") = true)
    (hc : env.enabledServices.contains ("claude") = true) :
    (∀ t2 t3, backendFails env.gemini →
      env.openai = .ok t2 → env.claude = .ok t3 →
      getSuggestions env =
        [{ service := "ChatGPT", suggestion := extractSuggestion t2,
           fix := extractCodeFix t2, confidence := 85 / 100 },
         { service := "Claude", suggestion := extractSuggestion t3,
           fix := extractCodeFix t3, confidence := 9 / 10 }]) ∧
    (∀ t1 t3, env.gemini = .ok t1 →
      backendFails env.openai → env.claude = .ok t3 →
      getSuggestions env =
        [{ service := "Gemini", suggestion := extractSuggestion t1,
           fix := extractCodeFix t1, confidence := 8 / 10 },
         { service := "Claude", suggestion := extractSuggestion t3,
           fix := extractCodeFix t3, confidence := 9 / 10 }]) ∧
    (∀ t1 t2, env.gemini = .ok t1 →
      env.openai = .ok t2 → backendFails env.claude →
      getSuggestions env =
        [{ service := "Gemini", suggestion := extractSuggestion t1,
           fix := extractCodeFix t1, confidence := 8 / 10 },
         { service := "ChatGPT", suggestion := extractSuggestion t2,
           fix := extractCodeFix t2, confidence := 85 / 100 }]) := by
  have hg' : ("gemini" : String) ∈ env.enabledServices := List.mem_of_elem_eq_true hg
  have ho' : ("openai" : String) ∈ env.enabledServices := List.mem_of_elem_eq_true ho
  have hc' : ("claude" : String) ∈ env.enabledServices := List.mem_of_elem_eq_true hc
  refine ⟨?_, ?_, ?_⟩
  · intro t2 t3 hf h2 h3
    have hn : getGeminiSuggestion env.gemini = none :=
      runBackend_fails_eq_none _ _ _ hf
    simp [getSuggestions, hg', ho', hc', h2, h3, hn, getOpenAISuggestion,
      getClaudeSuggestion, runBackend]
  · intro t1 t3 h1 hf h3
    have hn : getOpenAISuggestion env.openai = none :=
      runBackend_fails_eq_none _ _ _ hf
    simp [getSuggestions, hg', ho', hc', h1, h3, hn, getGeminiSuggestion,
      getClaudeSuggestion, runBackend]
  · intro t1 t2 h1 h2 hf
    have hn : getClaudeSuggestion env.claude = none :=
      runBackend_fails_eq_none _ _ _ hf
    simp [getSuggestions, hg', ho', hc', h1, h2, hn, getGeminiSuggestion,
      getOpenAISuggestion, runBackend]

/-- A batch with all three backends enabled and gemini timing out. -/
def timeoutEnv : AIEnv :=
  { enabledServices := ["gemini", "openai", "claude"]
    gemini := .transportError ("timeout of 10000ms exceeded")
    openai := .ok ("Check the null case first.")
    claude := .ok ("Await the promise before asserting.") }

theorem getSuggestions_isolated_witness :
    getSuggestions timeoutEnv =
      [{ service := "ChatGPT",
         suggestion := extractSuggestion ("Check the null case first."),
         fix := extractCodeFix ("Check the null case first."), confidence := 85 / 100 },
       { service := "Claude",
         suggestion := extractSuggestion ("Await the promise before asserting."),
         fix := extractCodeFix ("Await the promise before asserting."),
         confidence := 9 / 10 }] :=
  (getSuggestions_isolated timeoutEnv (by decide) (by decide) (by decide)).1
    ("Check the null case first.") ("Await the promise before asserting.")
    trivial rfl rfl

/-- Modelled from the spec: the text before the first fence marker. -/
def beforeFirstFence : List Char → List Char
  | [] => []
  | l@(c :: rest) =>
    if (['`', '`', '`']).isPrefixOf l then [] else c :: beforeFirstFence rest

theorem beforeFirstFence_eq (l : List Char) :
    beforeFirstFence l =
      (match findOcc (['`', '`', '`']) l with
       | none => l
       | some i => l.take i) := by
  induction l with
  | nil => simp [beforeFirstFence, findOcc]
  | cons c rest ih =>
    simp only [beforeFirstFence, findOcc]
    by_cases h : (['`', '`', '`']).isPrefixOf (c :: rest)
    · simp [h]
    · cases hf : findOcc (['`', '`', '`']) rest with
      | none => simp [h, hf, hf ▸ ih]
      | some i => simp [h, hf, hf ▸ ih]

theorem splitFence_headD (l : List Char) :
    (splitFence l).headD l =
      (match findOcc (['`', '`', '`']) l with
       | none => l
       | some i => l.take i) := by
  rw [splitFence]
  cases hl : l.length with
  | zero =>
    have hnil : l = [] := List.length_eq_zero.mp hl
    subst hnil
    simp [splitFenceAux, findOcc]
  | succ n =>
    simp only [splitFenceAux]
    cases hf : findOcc (['`', '`', '`']) l <;> simp [hf]

/-- A response whose only fenced block strips to exactly ten characters. -/
def tenCharFixText : String := "```\n1234567890\n```"

/-- C7 counterexample: the stripped block has exactly 10 characters — not
"under 10" — yet the code discards it (`cleanedBlock.length > 10` is
strict), so the returned codeFix is undefined. -/
theorem extractCodeFix_boundary_cex :
    cleanedFirstBlock tenCharFixText = some ("1234567890") ∧
      ("1234567890" : String).length = 10 ∧
      extractCodeFix tenCharFixText = none := by
  refine ⟨by decide, rfl, by decide⟩

/-- C7 (amended): the extracted suggestion is the text before the first
fence marker, capped at 300 characters and trimmed; the code fix is the
first fenced block with its fence markers stripped, discarded whenever
the stripped block has 10 characters or fewer (kept only when strictly
longer than 10); a response with no fence yields the suggestion text
only, with the code fix undefined. -/
theorem extract_suggestion_codeFix (text : String) :
    extractSuggestion text =
        String.mk (trimChars ((beforeFirstFence text.toList).take 300)) ∧
      extractCodeFix text =
        (match cleanedFirstBlock text with
         | none => none
         | some b => if b.length ≤ 10 then none else some b) ∧
      (findOcc (['`', '`', '`']) text.toList = none →
        extractCodeFix text = none ∧
          extractSuggestion text = String.mk (trimChars (text.toList.take 300))) := by
  refine ⟨?_, ?_, ?_⟩
  · rw [extractSuggestion, splitFence_headD, beforeFirstFence_eq]
  · cases hb : cleanedFirstBlock text with
    | none => simp [extractCodeFix, hb]
    | some b =>
      simp only [extractCodeFix, hb]
      by_cases h : 10 < b.length
      · rw [if_pos h, if_neg (by omega)]
      · rw [if_neg h, if_pos (by omega)]
  · intro hno
    have hno' : findOcc (['`', '`', '`']) text.data = none := hno
    constructor
    · simp [extractCodeFix, cleanedFirstBlock, firstFencedBlock, hno']
    · rw [extractSuggestion, splitFence_headD, hno]

/-- A plain response with no fenced block at all. -/
def plainResponseText : String := "Initialise the counter before use."

theorem extract_suggestion_codeFix_witness :
    extractCodeFix plainResponseText = none ∧
      extractSuggestion plainResponseText =
        String.mk (trimChars (plainResponseText.toList.take 300)) :=
  (extract_suggestion_codeFix plainResponseText).2.2 (by decide)

end FixLoop
